import Mathlib

/-!
Shallow embedding of `src/main.py` (manvfat-calendar): a scraper that extracts
a team's upcoming fixtures from an HTML page, filters them by the configured
team name, parses their date/time text, and exports them as iCalendar events.

HTML elements are modelled structurally: an element that may be absent is an
`Option`; the `.string` text of a present element is carried directly as a
`String`.  Dereferencing `.string` on an absent element raises Python's
`AttributeError`, which the spec calls `MalformedFixtureError`; extraction is
therefore `Except`-valued.  `datetime.strptime` with the fixed pattern
"%A %d %B %H:%M" is modelled character-by-character (CPython tokenizes the
input with a regex built from the pattern; we model the whitespace separators
as single spaces, which covers the inputs of interest).  Filesystem effects of
the exporter are modelled as an explicit trace of steps in source order.
-/

namespace ManVFat

/-! ### Date/time model: `datetime.strptime(s, "%A %d %B %H:%M")` -/

/-- The result of a successful parse: CPython's `datetime` restricted to the
fields the pattern can set.  Fields absent from the pattern keep strptime's
defaults; in particular the year defaults to 1900. -/
structure DateTime where
  year : Nat
  month : Nat
  day : Nat
  hour : Nat
  minute : Nat
deriving DecidableEq, Repr

/-- Split a character list on a separator character (models the tokenization
done by CPython's `_strptime` regex, whose literal-space parts match the
separators of "%A %d %B %H:%M"). -/
def chSplit (sep : Char) : List Char → List Char → List (List Char)
  | [], acc => [acc.reverse]
  | c :: cs, acc =>
    if c = sep then acc.reverse :: chSplit sep cs []
    else chSplit sep cs (c :: acc)

/-- Value of a decimal digit character. -/
def digitVal (c : Char) : Option Nat :=
  if c.isDigit then some (c.toNat - 48) else none

/-- A 1- or 2-digit decimal number, as matched by the `%d`/`%H`/`%M`
directives (their regexes accept at most two digits). -/
def parseNum2 : List Char → Option Nat
  | [c] => digitVal c
  | [c1, c2] =>
    match digitVal c1, digitVal c2 with
    | some a, some b => some (10 * a + b)
    | _, _ => none
  | _ => none

/-- Lowercase a token (strptime matches names case-insensitively). -/
def lowerTok (cs : List Char) : List Char := cs.map Char.toLower

/-- Full weekday names recognised by `%A`, lowercased. -/
def weekdayNamesLower : List String :=
  ["monday", "tuesday", "wednesday", "thursday", "friday", "saturday", "sunday"]

/-- Full month names recognised by `%B`, lowercased. -/
def monthNamesLower : List String :=
  ["january", "february", "march", "april", "may", "june",
   "july", "august", "september", "october", "november", "december"]

/-- Index of a token in a list of lowercased names (case-insensitive match). -/
def nameIdx (names : List String) (tok : List Char) : Option Nat :=
  names.findIdx? (fun n => n.data == lowerTok tok)

/-- Gregorian leap year. -/
def isLeap (y : Nat) : Bool :=
  (y % 4 == 0 && y % 100 != 0) || y % 400 == 0

/-- Number of days in a month (CPython's `datetime` validates the day of the
month against this, using the defaulted year). -/
def daysInMonth (y m : Nat) : Nat :=
  if m = 2 then (if isLeap y then 29 else 28)
  else if m = 4 ∨ m = 6 ∨ m = 9 ∨ m = 11 then 30
  else 31

/-- Model of `datetime.strptime(s, "%A %d %B %H:%M")`.  The weekday name is
matched and validated but then discarded: with no `%U`/`%W` directive CPython
derives the date from day and month alone, and the year defaults to 1900.
Out-of-range numbers (hour > 23, minute > 59, day 0 or past the end of the
month in year 1900) are rejected, as CPython rejects them. -/
def strptime_AdBHM (s : String) : Option DateTime :=
  match chSplit ' ' s.data [] with
  | [wd, dayTok, monthTok, timeTok] =>
    match nameIdx weekdayNamesLower wd, parseNum2 dayTok,
          nameIdx monthNamesLower monthTok, chSplit ':' timeTok [] with
    | some _, some day, some monthIdx, [hourTok, minuteTok] =>
      match parseNum2 hourTok, parseNum2 minuteTok with
      | some hour, some minute =>
        if 1 ≤ day ∧ day ≤ daysInMonth 1900 (monthIdx + 1) ∧ hour ≤ 23 ∧ minute ≤ 59 then
          some { year := 1900, month := monthIdx + 1, day := day, hour := hour, minute := minute }
        else none
      | _, _ => none
    | _, _, _, _ => none
  | _ => none

/-- Days of the week, as `datetime.weekday()` distinguishes them. -/
inductive Weekday where
  | monday
  | tuesday
  | wednesday
  | thursday
  | friday
  | saturday
  | sunday
deriving DecidableEq, Repr

/-- Zeller's congruence for the Gregorian calendar: 0 = Saturday. -/
def zeller (y m d : Nat) : Nat :=
  let y2 := if m ≤ 2 then y - 1 else y
  let m2 := if m ≤ 2 then m + 12 else m
  let k := y2 % 100
  let j := y2 / 100
  (d + 13 * (m2 + 1) / 5 + k + k / 4 + j / 4 + 5 * j) % 7

/-- The day of the week of a `DateTime`'s date, as `datetime.weekday()`
computes it from the proleptic Gregorian calendar. -/
def dtWeekday (dt : DateTime) : Weekday :=
  match zeller dt.year dt.month dt.day with
  | 0 => .saturday
  | 1 => .sunday
  | 2 => .monday
  | 3 => .tuesday
  | 4 => .wednesday
  | 5 => .thursday
  | _ => .friday

/-- Step a date forward by one day, rolling over months and years. -/
def nextDay (dt : DateTime) : DateTime :=
  if dt.day < daysInMonth dt.year dt.month then { dt with day := dt.day + 1 }
  else if dt.month < 12 then { dt with month := dt.month + 1, day := 1 }
  else { dt with year := dt.year + 1, month := 1, day := 1 }

/-- Step a date forward by `n` days. -/
def addDays (dt : DateTime) : Nat → DateTime
  | 0 => dt
  | n + 1 => addDays (nextDay dt) n

/-- Model of `datetime + timedelta(minutes = k)`. -/
def DateTime.addMinutes (dt : DateTime) (k : Nat) : DateTime :=
  let total := dt.hour * 60 + dt.minute + k
  addDays { dt with hour := total / 60 % 24, minute := total % 60 } (total / (60 * 24))

/-! ### `MatchFixture` -/

/-- `MatchFixture` after a successful `__init__`: the date/time strings have
already been parsed into `datetime`. -/
structure MatchFixture where
  team : String
  opponent : String
  home : Bool
  datetime : DateTime
deriving DecidableEq, Repr

/-- `MatchFixture.__parse_datetime`: joins the date and time strings with a
space and parses with the fixed pattern "%A %d %B %H:%M".  `none` models the
`ValueError` (the spec's `DateParseError`) raised on a non-matching string. -/
def MatchFixture.parse_datetime (date timeStr : String) : Option DateTime :=
  strptime_AdBHM (date ++ " " ++ timeStr)

/-- `MatchFixture.get_title`. -/
def MatchFixture.get_title (f : MatchFixture) : String :=
  if f.home then f.team ++ " vs " ++ f.opponent
  else f.opponent ++ " vs " ++ f.team

/-- Zero-padded two-digit decimal rendering, as strftime's `%m`/`%d`/`%I`/`%M`
produce. -/
def pad2 (n : Nat) : String :=
  if n < 10 then "0" ++ toString n else toString n

/-- Hour on the 12-hour clock, as strftime's `%I` renders it. -/
def hour12 (h : Nat) : Nat :=
  if h % 12 = 0 then 12 else h % 12

/-- Model of `datetime.strftime('%m/%d/%Y %I:%M %p')`. -/
def DateTime.strftimeDisplay (dt : DateTime) : String :=
  pad2 dt.month ++ "/" ++ pad2 dt.day ++ "/" ++ toString dt.year ++ " " ++
    pad2 (hour12 dt.hour) ++ ":" ++ pad2 dt.minute ++ " " ++
    (if dt.hour < 12 then "AM" else "PM")

/-- `MatchFixture.__str__`. -/
def MatchFixture.toDisplayString (f : MatchFixture) : String :=
  f.get_title ++ " on " ++ f.datetime.strftimeDisplay

/-! ### `ManVFatConnector.__get_fixtures`: HTML extraction -/

/-- The `div.schedule` block of a list item: the texts of its
`span.match-time` children, and the block's own `.string` text (used when
fewer than two match-time spans are found). -/
structure ScheduleEl where
  matchTimes : List String
  text : String
deriving DecidableEq, Repr

/-- One `<li>` of the fixtures container.  Each field is the `.string` text of
the corresponding sub-element, `none` when the lookup chain for that
sub-element (`find` on the li, and for team/opponent the nested `find('span')`)
comes back empty. -/
structure ListItem where
  dateEl : Option String
  teamSpan : Option String
  oppSpan : Option String
  schedule : Option ScheduleEl
deriving DecidableEq, Repr

/-- A parsed page: `none` when `find('div', id='upcomingfixtures')` finds no
container, otherwise the container's `<li>` items. -/
structure Page where
  container : Option (List ListItem)
deriving DecidableEq, Repr

/-- The raw fixture dict `{"team", "date", "opponent", "time"}`. -/
structure RawFixture where
  team : String
  date : String
  opponent : String
  time : String
deriving DecidableEq, Repr

/-- Extraction failure: Python's `AttributeError` on dereferencing `.string`
of an absent sub-element, the spec's `MalformedFixtureError`. -/
inductive ScrapeError where
  | malformedFixture
deriving DecidableEq, Repr

/-- Processing of one `<li>` (the loop body of `__get_fixtures`).  All four
sub-elements are dereferenced on line 118 of the source, so any absent one
fails the whole call.  The time is the text of the second `match-time` span
when at least two exist, otherwise the schedule block's own text. -/
def extractItem (li : ListItem) : Except ScrapeError RawFixture :=
  match li.teamSpan, li.dateEl, li.oppSpan, li.schedule with
  | some team, some date, some opp, some sched =>
    let timeText :=
      match sched.matchTimes with
      | _ :: second :: _ => second
      | _ => sched.text
    .ok { team := team, date := date, opponent := opp, time := timeText }
  | _, _, _, _ => .error .malformedFixture

/-- The extraction loop over the container's list items, in page order. -/
def extractAll : List ListItem → Except ScrapeError (List RawFixture)
  | [] => .ok []
  | li :: rest =>
    match extractItem li with
    | .error e => .error e
    | .ok r =>
      match extractAll rest with
      | .error e => .error e
      | .ok rs => .ok (r :: rs)

/-- `ManVFatConnector.__get_fixtures`: a missing container (or a container
with no `<li>` items, which makes the loop run zero times) yields `[]`. -/
def get_fixtures (page : Page) : Except ScrapeError (List RawFixture) :=
  match page.container with
  | none => .ok []
  | some lis => extractAll lis

/-- `ManVFatConnector.get_team_fixtures`: keep raw fixtures whose `team` or
`opponent` field equals the configured team name (exact, case-sensitive
comparison), constructing a `MatchFixture` with `home := true` for a team-slot
match and `home := false` for an opponent-slot match.  Constructing a
`MatchFixture` parses its date/time and raises on failure, modelled by
propagating `none`. -/
def get_team_fixtures (teamName : String) : List RawFixture → Option (List MatchFixture)
  | [] => some []
  | f :: rest =>
    if f.team = teamName then
      match MatchFixture.parse_datetime f.date f.time with
      | none => none
      | some dt =>
        match get_team_fixtures teamName rest with
        | none => none
        | some ms => some ({ team := f.team, opponent := f.opponent, home := true, datetime := dt } :: ms)
    else if f.opponent = teamName then
      match MatchFixture.parse_datetime f.date f.time with
      | none => none
      | some dt =>
        match get_team_fixtures teamName rest with
        | none => none
        | some ms => some ({ team := f.team, opponent := f.opponent, home := false, datetime := dt } :: ms)
    else
      get_team_fixtures teamName rest

/-! ### Calendar export -/

/-- An `icalendar.Event` as `export_to_ical` builds it, before
`ManVFatCalender.add_event` assigns the shared location (the random `uid`
assigned there is not modelled). -/
structure EventDraft where
  name : String
  description : String
  dtstart : DateTime
  dtend : DateTime
deriving DecidableEq, Repr

/-- A finished event inside the calendar. -/
structure CalEvent where
  name : String
  description : String
  dtstart : DateTime
  dtend : DateTime
  location : String
deriving DecidableEq, Repr

/-- The `ManVFatCalender`: calendar metadata, the shared location, and the
component list in insertion order. -/
structure ManVFatCalender where
  prodid : String
  version : String
  location : String
  events : List CalEvent
deriving DecidableEq, Repr

/-- `ManVFatCalender.__init__`. -/
def ManVFatCalender.init (team location : String) : ManVFatCalender :=
  { prodid := "-//Man V Fat Calender Oldbury - " ++ team ++ "//manvfatfootball.org//",
    version := "2.0",
    location := location,
    events := [] }

/-- `ManVFatCalender.add_event`: stamps the calendar's shared location onto
the event and appends it.  (The `if event:` truthiness guard always holds for
the events the exporter builds, which carry four components.) -/
def ManVFatCalender.add_event (cal : ManVFatCalender) (e : EventDraft) : ManVFatCalender :=
  { cal with
    events := cal.events ++
      [{ name := e.name, description := e.description, dtstart := e.dtstart,
         dtend := e.dtend, location := cal.location }] }

/-- The event built for one fixture in the loop of
`ManVFatCalendarExporter.export_to_ical`. -/
def build_event (f : MatchFixture) : EventDraft :=
  { name := f.get_title,
    description := f.toDisplayString,
    dtstart := f.datetime,
    dtend := f.datetime.addMinutes 30 }

/-- The in-memory calendar `export_to_ical` has built when the loop ends. -/
def export_build (team location : String) (fixtures : List MatchFixture) : ManVFatCalender :=
  fixtures.foldl (fun cal f => cal.add_event (build_event f)) (ManVFatCalender.init team location)

/-- The observable steps of `export_to_ical`, in source order. -/
inductive ExportStep where
  | buildEvent (f : MatchFixture)
  | makeDir (dir : String)
  | writeFile (path : String) (cal : ManVFatCalender)
deriving DecidableEq, Repr

/-- Whether a step is the construction of an event. -/
def ExportStep.isBuildEvent : ExportStep → Bool
  | .buildEvent _ => true
  | _ => false

/-- Whether a step touches the filesystem (directory creation or file write). -/
def ExportStep.isFileSystemOp : ExportStep → Bool
  | .makeDir _ => true
  | .writeFile _ _ => true
  | .buildEvent _ => false

/-- Trace semantics of `ManVFatCalendarExporter.export_to_ical`: one
`buildEvent` per fixture in order, then (only if `<exportPath>/MyCalendar` does
not yet exist) a `makeDir`, then the single write of the serialized calendar. -/
def export_to_ical_trace (team location : String) (fixtures : List MatchFixture)
    (exportPath filename : String) (dirExists : Bool) : List ExportStep :=
  fixtures.map ExportStep.buildEvent ++
    (if dirExists then [] else [ExportStep.makeDir (exportPath ++ "/MyCalendar")]) ++
    [ExportStep.writeFile (exportPath ++ "/MyCalendar/" ++ filename)
      (export_build team location fixtures)]

/-! ### Concrete inputs from the spec's end-to-end example -/

/-- The example `<li>`: team-slot "Oldbury", opponent-slot "Rivals FC",
date "Tuesday 14 May", two time-candidates. -/
def liOldbury : ListItem :=
  { dateEl := some "Tuesday 14 May", teamSpan := some "Oldbury", oppSpan := some "Rivals FC",
    schedule := some { matchTimes := ["18:00", "19:45"], text := "" } }

/-- The raw fixture extracted from `liOldbury`. -/
def rawOldbury : RawFixture :=
  { team := "Oldbury", date := "Tuesday 14 May", opponent := "Rivals FC", time := "19:45" }

/-- The `MatchFixture` built from `rawOldbury` for configured team "Oldbury". -/
def fixOldbury : MatchFixture :=
  { team := "Oldbury", opponent := "Rivals FC", home := true,
    datetime := { year := 1900, month := 5, day := 14, hour := 19, minute := 45 } }

/-- A list item whose schedule block is absent. -/
def liMissingTime : ListItem :=
  { dateEl := some "Tuesday 14 May", teamSpan := some "Oldbury", oppSpan := some "Rivals FC",
    schedule := none }

/-- The timestamp parsed from "Tuesday 14 May" and "19:45". -/
def dtMay14 : DateTime :=
  { year := 1900, month := 5, day := 14, hour := 19, minute := 45 }

/-- A derby record: both slots carry the configured team's name. -/
def rawDerby : RawFixture :=
  { team := "Oldbury", date := "Tuesday 14 May", opponent := "Oldbury", time := "19:45" }

/-! ### Helper lemmas -/

/-- A list item with any absent sub-element fails extraction. -/
theorem extractItem_missing (li : ListItem)
    (h : li.dateEl = none ∨ li.teamSpan = none ∨ li.oppSpan = none ∨ li.schedule = none) :
    extractItem li = .error .malformedFixture := by
  cases ht : li.teamSpan <;> cases hd : li.dateEl <;> cases ho : li.oppSpan <;>
    cases hs : li.schedule <;> simp_all [extractItem]

/-- If any member of the list fails extraction, the whole loop fails. -/
theorem extractAll_error_of_bad_mem (lis : List ListItem) (li : ListItem) (hmem : li ∈ lis)
    (hbad : extractItem li = .error .malformedFixture) :
    extractAll lis = .error .malformedFixture := by
  induction lis with
  | nil => cases hmem
  | cons hd tl ih =>
    cases hmem with
    | head => simp [extractAll, hbad]
    | tail _ hm =>
      cases hx : extractItem hd with
      | error e => cases e; simp [extractAll, hx]
      | ok r => simp [extractAll, hx, ih hm]

/-- Every `DateTime` produced by the strptime model carries the default
year 1900. -/
theorem strptime_AdBHM_year (s : String) (dt : DateTime)
    (h : strptime_AdBHM s = some dt) : dt.year = 1900 := by
  unfold strptime_AdBHM at h
  repeat' split at h
  all_goals first
    | exact Option.noConfusion h
    | (rw [Option.some.injEq] at h; subst h; rfl)

/-- Unrolling the event-adding loop of `export_to_ical`. -/
theorem add_event_fold_events (cal : ManVFatCalender) (fixtures : List MatchFixture) :
    (fixtures.foldl (fun c f => c.add_event (build_event f)) cal).events =
      cal.events ++ fixtures.map (fun f =>
        { name := f.get_title, description := f.toDisplayString, dtstart := f.datetime,
          dtend := f.datetime.addMinutes 30, location := cal.location }) := by
  induction fixtures generalizing cal with
  | nil => simp
  | cons f rest ih =>
    rw [List.foldl_cons, ih]
    simp [ManVFatCalender.add_event, build_event]

/-! ### Claim theorems -/

/-- C3 counterexample: parsing "Tuesday 14 May" with "19:45" yields the
timestamp 1900-05-14 19:45, whose weekday is Monday, not Tuesday. -/
theorem parse_weekday_monday_cex :
    (MatchFixture.parse_datetime "Tuesday 14 May" "19:45").map dtWeekday =
      some Weekday.monday ∧ Weekday.monday ≠ Weekday.tuesday := by
  decide

/-- C3 (amended): parsing "Tuesday 14 May" with "19:45" succeeds and yields
the timestamp 1900-05-14 19:45 — hour 19, minute 45, day 14, month May — but
its year is the strptime default 1900, and 14 May 1900 is a Monday: the
weekday name in the input is validated and then ignored. -/
theorem parse_tuesday_14_may_amended :
    MatchFixture.parse_datetime "Tuesday 14 May" "19:45" =
      some { year := 1900, month := 5, day := 14, hour := 19, minute := 45 } ∧
    dtWeekday { year := 1900, month := 5, day := 14, hour := 19, minute := 45 } =
      Weekday.monday := by
  decide

/-- C8: every date/time string pair the fixture parser accepts yields a
timestamp in year 1900, the default of the year-less pattern
"%A %d %B %H:%M". -/
theorem parsed_year_is_1900 (date timeStr : String) (dt : DateTime)
    (h : MatchFixture.parse_datetime date timeStr = some dt) : dt.year = 1900 :=
  strptime_AdBHM_year (date ++ " " ++ timeStr) dt h

/-- C8 witness. -/
theorem parsed_year_is_1900_witness :
    MatchFixture.parse_datetime "Tuesday 14 May" "19:45" =
      some { year := 1900, month := 5, day := 14, hour := 19, minute := 45 } ∧
    ({ year := 1900, month := 5, day := 14, hour := 19, minute := 45 } : DateTime).year = 1900 :=
  ⟨by decide, parsed_year_is_1900 "Tuesday 14 May" "19:45" _ (by decide)⟩

/-- C6: if any list item inside a present container misses an expected
sub-element, the whole extraction fails with a `MalformedFixtureError`; no
partial list is returned. -/
theorem missing_subelement_errors (lis : List ListItem) (li : ListItem) (hmem : li ∈ lis)
    (h : li.dateEl = none ∨ li.teamSpan = none ∨ li.oppSpan = none ∨ li.schedule = none) :
    get_fixtures { container := some lis } = .error .malformedFixture :=
  extractAll_error_of_bad_mem lis li hmem (extractItem_missing li h)

/-- C6 witness. -/
theorem missing_subelement_errors_witness :
    (liMissingTime ∈ [liMissingTime] ∧
      (liMissingTime.dateEl = none ∨ liMissingTime.teamSpan = none ∨
        liMissingTime.oppSpan = none ∨ liMissingTime.schedule = none)) ∧
    get_fixtures { container := some [liMissingTime] } = .error .malformedFixture :=
  ⟨⟨by decide, by decide⟩,
    missing_subelement_errors [liMissingTime] liMissingTime (by decide) (by decide)⟩

/-- C4: the exported calendar holds exactly one event per fixture, in order:
name = title, description = the display string, start = the parsed timestamp,
end = start + 30 minutes, location = the calendar's shared location. -/
theorem export_events_built_correct (team loc : String) (fixtures : List MatchFixture) :
    (export_build team loc fixtures).events = fixtures.map (fun f =>
      { name := f.get_title,
        description := f.get_title ++ " on " ++ f.datetime.strftimeDisplay,
        dtstart := f.datetime,
        dtend := f.datetime.addMinutes 30,
        location := loc }) := by
  rw [export_build, add_event_fold_events]
  rfl

/-- C5: an absent container or a container with zero list items yields an
empty fixture list with no error, filtering it yields no fixtures, and the
export still reaches the file write with a calendar holding zero events. -/
theorem empty_fixtures_export_ok (page : Page)
    (h : page.container = none ∨ page.container = some [])
    (team loc exportPath filename : String) (dirExists : Bool) :
    get_fixtures page = .ok [] ∧
    get_team_fixtures team [] = some [] ∧
    (export_build team loc []).events = [] ∧
    ExportStep.writeFile (exportPath ++ "/MyCalendar/" ++ filename) (export_build team loc []) ∈
      export_to_ical_trace team loc [] exportPath filename dirExists := by
  refine ⟨?_, rfl, rfl, ?_⟩
  · rcases h with h | h <;> simp [get_fixtures, h, extractAll]
  · cases dirExists <;> simp [export_to_ical_trace]

/-- C5 witness. -/
theorem empty_fixtures_export_ok_witness :
    (Page.mk none).container = none ∧
    (get_fixtures (Page.mk none) = .ok [] ∧
      get_team_fixtures "Oldbury" [] = some [] ∧
      (export_build "Oldbury" "Portway" []).events = [] ∧
      ExportStep.writeFile ("out" ++ "/MyCalendar/" ++ "MyCalendar.ics")
          (export_build "Oldbury" "Portway" []) ∈
        export_to_ical_trace "Oldbury" "Portway" [] "out" "MyCalendar.ics" false) :=
  ⟨rfl, empty_fixtures_export_ok (Page.mk none) (Or.inl rfl)
    "Oldbury" "Portway" "out" "MyCalendar.ics" false⟩


/-- Event-construction steps listed before a tail of other steps: a step that
is an event construction sits at an index below every step of the tail. -/
theorem map_buildEvent_before_tail (fixtures : List MatchFixture) (tailSteps : List ExportStep)
    (htail : ∀ s ∈ tailSteps, s.isBuildEvent = false)
    (i j : Nat) (si sj : ExportStep)
    (hi : (fixtures.map ExportStep.buildEvent ++ tailSteps)[i]? = some si)
    (hj : (fixtures.map ExportStep.buildEvent ++ tailSteps)[j]? = some sj)
    (hbi : si.isBuildEvent = true) (hfj : sj.isFileSystemOp = true) : i < j := by
  have hlen : i < (fixtures.map ExportStep.buildEvent).length := by
    by_contra hcon
    rw [List.getElem?_append_right (Nat.le_of_not_lt hcon)] at hi
    have hfalse := htail si (List.getElem?_mem hi)
    rw [hbi] at hfalse
    exact Bool.noConfusion hfalse
  have hlen2 : (fixtures.map ExportStep.buildEvent).length ≤ j := by
    by_contra hcon
    rw [List.getElem?_append_left (Nat.lt_of_not_le hcon)] at hj
    rcases List.mem_map.mp (List.getElem?_mem hj) with ⟨f, _, hf⟩
    rw [← hf] at hfj
    exact Bool.noConfusion hfj
  exact Nat.lt_of_lt_of_le hlen hlen2

/-- C1: whenever a list item's schedule block holds at least two match-time
candidates, the extracted time is the text of the second candidate; end to
end, the spec's Oldbury example produces exactly one event titled
"Oldbury vs Rivals FC" starting at 19:45 (not 18:00) and ending at 20:15. -/
theorem second_time_candidate_used :
    (∀ (li : ListItem) (s : ScheduleEl) (a b : String) (rest : List String) (r : RawFixture),
        li.schedule = some s → s.matchTimes = a :: b :: rest →
        extractItem li = Except.ok r → r.time = b) ∧
    get_fixtures { container := some [liOldbury] } = Except.ok [rawOldbury] ∧
    get_team_fixtures "Oldbury" [rawOldbury] = some [fixOldbury] ∧
    ∀ loc : String, (export_build "Oldbury" loc [fixOldbury]).events =
      [{ name := "Oldbury vs Rivals FC",
         description := "Oldbury vs Rivals FC on 05/14/1900 07:45 PM",
         dtstart := { year := 1900, month := 5, day := 14, hour := 19, minute := 45 },
         dtend := { year := 1900, month := 5, day := 14, hour := 20, minute := 15 },
         location := loc }] := by
  refine ⟨?_, rfl, rfl, fun loc => rfl⟩
  intro li s a b rest r hs hm hr
  cases ht : li.teamSpan <;> cases hd : li.dateEl <;> cases ho : li.oppSpan <;>
    simp_all [extractItem]
  rw [← hr]

/-- C1 witness. -/
theorem second_time_candidate_used_witness :
    (liOldbury.schedule = some { matchTimes := ["18:00", "19:45"], text := "" } ∧
      ({ matchTimes := ["18:00", "19:45"], text := "" } : ScheduleEl).matchTimes =
        "18:00" :: "19:45" :: [] ∧
      extractItem liOldbury = Except.ok rawOldbury) ∧
    rawOldbury.time = "19:45" :=
  ⟨⟨rfl, rfl, rfl⟩,
    second_time_candidate_used.1 liOldbury { matchTimes := ["18:00", "19:45"], text := "" }
      "18:00" "19:45" [] rawOldbury rfl rfl rfl⟩

/-- C2: a raw fixture contributes to the filtered output exactly when the
configured team name equals (case-sensitively) its team field or its opponent
field; a team-slot match yields `home = true`, an otherwise matching
opponent-slot match yields `home = false`, and every produced fixture's title
lists home first as "team vs opponent" and away as "opponent vs team". -/
theorem team_filter_correct (teamName : String) (fs : List RawFixture) (out : List MatchFixture)
    (h : get_team_fixtures teamName fs = some out) :
    out = fs.filterMap (fun f =>
      if f.team = teamName then
        (MatchFixture.parse_datetime f.date f.time).map
          (fun dt => { team := f.team, opponent := f.opponent, home := true, datetime := dt })
      else if f.opponent = teamName then
        (MatchFixture.parse_datetime f.date f.time).map
          (fun dt => { team := f.team, opponent := f.opponent, home := false, datetime := dt })
      else none) ∧
    ∀ m ∈ out, (m.home = true → m.get_title = m.team ++ " vs " ++ m.opponent) ∧
      (m.home = false → m.get_title = m.opponent ++ " vs " ++ m.team) := by
  constructor
  · induction fs generalizing out with
    | nil =>
      simp only [get_team_fixtures, Option.some.injEq] at h
      simp [← h]
    | cons f rest ih =>
      by_cases h1 : f.team = teamName
      · simp only [get_team_fixtures, if_pos h1] at h
        cases hp : MatchFixture.parse_datetime f.date f.time with
        | none => rw [hp] at h; exact Option.noConfusion h
        | some dt =>
          rw [hp] at h
          cases hr : get_team_fixtures teamName rest with
          | none => rw [hr] at h; exact Option.noConfusion h
          | some ms =>
            rw [hr, Option.some.injEq] at h
            subst h
            simp [List.filterMap_cons, h1, hp, ih ms hr]
      · by_cases h2 : f.opponent = teamName
        · simp only [get_team_fixtures, if_neg h1, if_pos h2] at h
          cases hp : MatchFixture.parse_datetime f.date f.time with
          | none => rw [hp] at h; exact Option.noConfusion h
          | some dt =>
            rw [hp] at h
            cases hr : get_team_fixtures teamName rest with
            | none => rw [hr] at h; exact Option.noConfusion h
            | some ms =>
              rw [hr, Option.some.injEq] at h
              subst h
              simp [List.filterMap_cons, h1, h2, hp, ih ms hr]
        · simp only [get_team_fixtures, if_neg h1, if_neg h2] at h
          rw [List.filterMap_cons]
          simp only [h1, h2, if_neg, ite_false]
          exact ih out h
  · intro m _
    constructor <;> intro hh <;> simp [MatchFixture.get_title, hh]

/-- C2 witness. -/
theorem team_filter_correct_witness :
    get_team_fixtures "Oldbury" [rawOldbury] = some [fixOldbury] ∧
    ([fixOldbury] = [rawOldbury].filterMap (fun f =>
      if f.team = "Oldbury" then
        (MatchFixture.parse_datetime f.date f.time).map
          (fun dt => { team := f.team, opponent := f.opponent, home := true, datetime := dt })
      else if f.opponent = "Oldbury" then
        (MatchFixture.parse_datetime f.date f.time).map
          (fun dt => { team := f.team, opponent := f.opponent, home := false, datetime := dt })
      else none) ∧
    ∀ m ∈ [fixOldbury],
      (m.home = true → m.get_title = m.team ++ " vs " ++ m.opponent) ∧
      (m.home = false → m.get_title = m.opponent ++ " vs " ++ m.team)) :=
  ⟨rfl, team_filter_correct "Oldbury" [rawOldbury] [fixOldbury] rfl⟩

/-- C9: when both the team field and the opponent field equal the configured
team name, the team-slot branch wins: exactly one fixture is contributed for
that record and it has `home = true`. -/
theorem both_slots_match_is_home (teamName : String) (f : RawFixture) (rest : List RawFixture)
    (h1 : f.team = teamName) (_h2 : f.opponent = teamName)
    (dt : DateTime) (hp : MatchFixture.parse_datetime f.date f.time = some dt) :
    get_team_fixtures teamName (f :: rest) =
      (get_team_fixtures teamName rest).map
        (fun ms => { team := f.team, opponent := f.opponent, home := true, datetime := dt } :: ms) := by
  simp only [get_team_fixtures, if_pos h1, hp]
  cases get_team_fixtures teamName rest <;> rfl

/-- C9 witness: a derby record whose two slots both read "Oldbury". -/
theorem both_slots_match_is_home_witness :
    (rawDerby.team = "Oldbury" ∧ rawDerby.opponent = "Oldbury" ∧
      MatchFixture.parse_datetime rawDerby.date rawDerby.time = some dtMay14) ∧
    get_team_fixtures "Oldbury" [rawDerby] =
      (get_team_fixtures "Oldbury" []).map
        (fun ms => { team := rawDerby.team, opponent := rawDerby.opponent, home := true,
                     datetime := dtMay14 } :: ms) :=
  ⟨⟨rfl, rfl, rfl⟩, both_slots_match_is_home "Oldbury" rawDerby [] rfl rfl dtMay14 rfl⟩

/-- C10: order is preserved end to end — the filtered output lists the
matching raw fixtures in their original page order, and the exported calendar
holds the events in exactly the fixtures' order. -/
theorem order_preserved_end_to_end (teamName : String) (fs : List RawFixture)
    (out : List MatchFixture) (h : get_team_fixtures teamName fs = some out) :
    out.map (fun m => (m.team, m.opponent)) =
      (fs.filter (fun f => decide (f.team = teamName) || decide (f.opponent = teamName))).map
        (fun f => (f.team, f.opponent)) ∧
    ∀ team loc : String,
      (export_build team loc out).events.map (fun e => (e.name, e.dtstart)) =
        out.map (fun m => (m.get_title, m.datetime)) := by
  constructor
  · induction fs generalizing out with
    | nil =>
      simp only [get_team_fixtures, Option.some.injEq] at h
      simp [← h]
    | cons f rest ih =>
      by_cases h1 : f.team = teamName
      · simp only [get_team_fixtures, if_pos h1] at h
        cases hp : MatchFixture.parse_datetime f.date f.time with
        | none => rw [hp] at h; exact Option.noConfusion h
        | some dt =>
          rw [hp] at h
          cases hr : get_team_fixtures teamName rest with
          | none => rw [hr] at h; exact Option.noConfusion h
          | some ms =>
            rw [hr, Option.some.injEq] at h
            subst h
            simp [List.filter_cons, h1, ih ms hr]
      · by_cases h2 : f.opponent = teamName
        · simp only [get_team_fixtures, if_neg h1, if_pos h2] at h
          cases hp : MatchFixture.parse_datetime f.date f.time with
          | none => rw [hp] at h; exact Option.noConfusion h
          | some dt =>
            rw [hp] at h
            cases hr : get_team_fixtures teamName rest with
            | none => rw [hr] at h; exact Option.noConfusion h
            | some ms =>
              rw [hr, Option.some.injEq] at h
              subst h
              simp [List.filter_cons, h1, h2, ih ms hr]
        · simp only [get_team_fixtures, if_neg h1, if_neg h2] at h
          rw [List.filter_cons]
          simp only [h1, h2, decide_False, Bool.or_false, if_false]
          exact ih out h
  · intro team loc
    rw [export_build, add_event_fold_events]
    simp [ManVFatCalender.init, MatchFixture.toDisplayString, Function.comp]

/-- C10 witness. -/
theorem order_preserved_end_to_end_witness :
    get_team_fixtures "Oldbury" [rawOldbury] = some [fixOldbury] ∧
    (([fixOldbury] : List MatchFixture).map (fun m => (m.team, m.opponent)) =
      ([rawOldbury].filter
          (fun f => decide (f.team = "Oldbury") || decide (f.opponent = "Oldbury"))).map
        (fun f => (f.team, f.opponent)) ∧
    ∀ team loc : String,
      (export_build team loc [fixOldbury]).events.map (fun e => (e.name, e.dtstart)) =
        ([fixOldbury] : List MatchFixture).map (fun m => (m.get_title, m.datetime))) :=
  ⟨rfl, order_preserved_end_to_end "Oldbury" [rawOldbury] [fixOldbury] rfl⟩

/-- C7: in the export trace, every event-construction step precedes every
filesystem step (directory creation and the file write), so a failure while
constructing any event happens before any file write is attempted. -/
theorem build_precedes_fs_ops (team loc exportPath filename : String)
    (fixtures : List MatchFixture) (dirExists : Bool) (i j : Nat) (si sj : ExportStep)
    (hi : (export_to_ical_trace team loc fixtures exportPath filename dirExists)[i]? = some si)
    (hj : (export_to_ical_trace team loc fixtures exportPath filename dirExists)[j]? = some sj)
    (hbi : si.isBuildEvent = true) (hfj : sj.isFileSystemOp = true) : i < j := by
  unfold export_to_ical_trace at hi hj
  rw [List.append_assoc] at hi hj
  refine map_buildEvent_before_tail fixtures _ ?_ i j si sj hi hj hbi hfj
  intro s hs
  rcases List.mem_append.mp hs with hs | hs
  · cases dirExists <;> simp at hs
    subst hs
    rfl
  · rw [List.mem_singleton.mp hs]
    rfl

/-- C7 witness. -/
theorem build_precedes_fs_ops_witness :
    ((export_to_ical_trace "Oldbury" "Portway" [fixOldbury] "out" "MyCalendar.ics" false)[0]? =
        some (ExportStep.buildEvent fixOldbury) ∧
      (export_to_ical_trace "Oldbury" "Portway" [fixOldbury] "out" "MyCalendar.ics" false)[2]? =
        some (ExportStep.writeFile ("out" ++ "/MyCalendar/" ++ "MyCalendar.ics")
          (export_build "Oldbury" "Portway" [fixOldbury])) ∧
      (ExportStep.buildEvent fixOldbury).isBuildEvent = true ∧
      (ExportStep.writeFile ("out" ++ "/MyCalendar/" ++ "MyCalendar.ics")
        (export_build "Oldbury" "Portway" [fixOldbury])).isFileSystemOp = true) ∧
    (0 : Nat) < 2 :=
  ⟨⟨rfl, rfl, rfl, rfl⟩,
    build_precedes_fs_ops "Oldbury" "Portway" "out" "MyCalendar.ics" [fixOldbury] false 0 2
      (ExportStep.buildEvent fixOldbury)
      (ExportStep.writeFile ("out" ++ "/MyCalendar/" ++ "MyCalendar.ics")
        (export_build "Oldbury" "Portway" [fixOldbury]))
      rfl rfl rfl rfl⟩

end ManVFat
